import Mathlib

/-!
Verification of the bookmark-list reconciliation engine and the metadata
extractor of the remembr repository.

The embedding follows the source:
* `src/components/BookmarkList.tsx` — the list store held in React state,
  its realtime handlers (INSERT / DELETE / UPDATE), the pagination
  `loadMore` callback, the optimistic `handleDelete` and drag-reorder
  `handleDrop` callbacks.
* `src/app/api/fetch-metadata/route.ts` — the metadata extraction route.

JavaScript arrays become `List`, nullable values become `Option`,
timestamps become `Nat` (ISO-8601 strings compare lexicographically, which
agrees with chronological order), and the asynchronous remote calls become
explicit outcome parameters (`Bool` for write success, `Except`/`Option`
for fetch results).
-/

/-- Bookmark record, from the `Bookmark` interface of
`src/components/BookmarkList.tsx`.  The `position` column is nullable in
the database (the queries order with `nullsFirst: false` and rows inserted
by `AddBookmarkForm` carry no position), so it is embedded as
`Option Nat`. -/
structure Bookmark where
  id : String
  title : String
  url : String
  favicon_url : Option String
  og_image : Option String
  og_description : Option String
  created_at : Nat
  position : Option Nat
deriving DecidableEq, Repr

/-- Strict order on `position` sort keys: `null` sorts last
(`order('position', { ascending: true, nullsFirst: false })`). -/
def posLt : Option Nat → Option Nat → Bool
  | some x, some y => decide (x < y)
  | some _, none => true
  | none, _ => false

/-- Equality of `position` sort keys. -/
def posBeq : Option Nat → Option Nat → Bool
  | some x, some y => decide (x = y)
  | none, none => true
  | _, _ => false

/-- The total order used by the server queries: `position` ascending with
nulls last, ties broken by `created_at` descending. -/
def bmLe (a b : Bookmark) : Bool :=
  posLt a.position b.position ||
    (posBeq a.position b.position && decide (b.created_at ≤ a.created_at))

/-- A store sequence is ordered when consecutive records respect `bmLe`
pairwise. -/
def sortedStore (s : List Bookmark) : Prop :=
  s.Pairwise (fun a b => bmLe a b = true)

/-- No two records of the store share an `id`. -/
def NodupIds (s : List Bookmark) : Prop :=
  (s.map (fun b => b.id)).Nodup

/-- Membership test by `id`, mirroring `c.some((b) => b.id === x)`. -/
def hasId (s : List Bookmark) (i : String) : Bool :=
  s.any (fun b => b.id == i)

/-- Realtime INSERT handler and the `bookmark-added` local-event handler
(`BookmarkList.tsx` lines 97–98): prepend the record unless a record with
the same `id` is already present. -/
def insertEvent (r : Bookmark) (s : List Bookmark) : List Bookmark :=
  if s.any (fun b => b.id == r.id) then s else r :: s

/-- Realtime DELETE handler (line 100) and the local mutation of the
optimistic delete (line 112): `c.filter((b) => b.id !== id)`. -/
def removeId (i : String) (s : List Bookmark) : List Bookmark :=
  s.filter (fun b => b.id != i)

/-- Realtime UPDATE handler (line 102):
`c.map((b) => b.id === r.id ? r : b)`. -/
def replaceEvent (r : Bookmark) (s : List Bookmark) : List Bookmark :=
  s.map (fun b => if b.id = r.id then r else b)

/-- Pagination merge (lines 68–71): append the fetched page, keeping only
records whose `id` is not already in the current list.  The exclusion set
`ids` is computed once from `current`, before any of the batch is
appended. -/
def mergePage (s data : List Bookmark) : List Bookmark :=
  s ++ data.filter (fun b => !(s.any (fun c => c.id == b.id)))

/-- Local mutation of the drag-reorder `handleDrop` (lines 124–134): guard
against a missing or self drop, remove the dragged record from its index,
insert it at the target index, and recompute dense 0-indexed positions for
the whole list. -/
def handleDrop (draggedId : Option String) (targetId : String)
    (s : List Bookmark) : List Bookmark :=
  match draggedId with
  | none => s
  | some d =>
    if d = targetId then s
    else
      match s.findIdx? (fun b => b.id == d),
            s.findIdx? (fun b => b.id == targetId) with
      | some di, some ti =>
        match s[di]? with
        | some moved =>
          ((s.eraseIdx di).insertIdx ti moved).mapIdx
            (fun i b => { b with position := some i })
        | none => s
      | _, _ => s

/-- One mutation of the list store, as triggered by pagination, the
realtime channel, the local `bookmark-added` event, or the optimistic
callbacks. -/
inductive StoreOp
  | mergePage (data : List Bookmark)
  | inserted (r : Bookmark)
  | deleted (i : String)
  | updated (r : Bookmark)
  | optDelete (i : String)
  | reorder (draggedId : Option String) (targetId : String)
deriving DecidableEq, Repr

/-- Apply one store mutation. -/
def applyOp (s : List Bookmark) : StoreOp → List Bookmark
  | StoreOp.mergePage data => mergePage s data
  | StoreOp.inserted r => insertEvent r s
  | StoreOp.deleted i => removeId i s
  | StoreOp.updated r => replaceEvent r s
  | StoreOp.optDelete i => removeId i s
  | StoreOp.reorder d t => handleDrop d t s

/-- Apply a sequence of store mutations in order. -/
def applyOps (s : List Bookmark) (ops : List StoreOp) : List Bookmark :=
  ops.foldl applyOp s

/-- Optimistic delete `handleDelete` (lines 110–116).  `prev` snapshots
the list before the local removal; `concurrent` are the mutations other
handlers apply between the local removal and the completion of the remote
delete; on remote failure the snapshot is restored wholesale
(`setBookmarks(prev)`), discarding the concurrent mutations. -/
def handleDelete (i : String) (s : List Bookmark) (concurrent : List StoreOp)
    (remoteOk : Bool) : List Bookmark :=
  let prev := s
  let afterLocal := s.filter (fun b => b.id != i)
  let atCompletion := applyOps afterLocal concurrent
  if remoteOk then atCompletion else prev

/-- Drag-reorder `handleDrop` including the remote bulk upsert (lines
124–139): the guard branches return without issuing a remote call; on the
main path the reordered list is installed and, if the upsert fails, the
pre-reorder snapshot `prev` is restored. -/
def handleDropRemote (draggedId : Option String) (targetId : String)
    (s : List Bookmark) (remoteOk : Bool) : List Bookmark :=
  match draggedId with
  | none => s
  | some d =>
    if d = targetId then s
    else
      match s.findIdx? (fun b => b.id == d),
            s.findIdx? (fun b => b.id == targetId) with
      | some di, some ti =>
        match s[di]? with
        | some moved =>
          let prev := s
          let updated := ((s.eraseIdx di).insertIdx ti moved).mapIdx
            (fun i b => { b with position := some i })
          if remoteOk then updated else prev
        | none => s
      | _, _ => s

/-- Pagination state of `BookmarkList` (lines 27–34): the list plus
`currentPage`, `hasMore` and the in-flight guard `loadingMore`. -/
structure PageState where
  bookmarks : List Bookmark
  currentPage : Nat
  hasMore : Bool
  loadingMore : Bool
deriving DecidableEq, Repr

/-- Range requested by the next `loadMore` call (lines 54–56):
`from = (nextPage - 1) * pageSize`, `to = from + pageSize - 1`. -/
def loadRange (pageSize : Nat) (st : PageState) : Nat × Nat :=
  let nextPage := st.currentPage + 1
  let fromIdx := (nextPage - 1) * pageSize
  (fromIdx, fromIdx + pageSize - 1)

/-- Whether a `loadMore` invocation reaches the fetch (line 52): the call
is suppressed while one is in flight or once the list is exhausted. -/
def issuesFetch (st : PageState) : Bool :=
  !(st.loadingMore || !st.hasMore)

/-- One complete `loadMore` invocation (lines 51–76).  `fetch` is the
outcome of the remote range query.  On error only a toast is shown; on
success the page is merged with dedup, `currentPage` advances, and a short
page clears `hasMore`.  `loadingMore` is raised at the start and cleared
at the end, so a completed invocation leaves it `false`. -/
def loadMore (pageSize : Nat) (st : PageState)
    (fetch : Except Unit (List Bookmark)) : PageState :=
  if st.loadingMore || !st.hasMore then st
  else
    match fetch with
    | Except.error _ => { st with loadingMore := false }
    | Except.ok data =>
      { bookmarks := mergePage st.bookmarks data
        currentPage := st.currentPage + 1
        hasMore := if data.length < pageSize then false else st.hasMore
        loadingMore := false }

/-- Parsed URL, the two projections of the browser `URL` object used by
the metadata route (`validUrl.hostname`, `validUrl.origin`). -/
structure ParsedUrl where
  hostname : String
  origin : String
deriving DecidableEq, Repr

/-- Raw extraction results produced by the regex helpers of
`src/app/api/fetch-metadata/route.ts` on the fetched HTML.  Each field is
the first capture of the corresponding pattern (`extractMeta` for the meta
tags, the `<title>` regex, and the icon-link chain
`faviconMatch?.[1] || faviconMatch2?.[1] || appleTouchMatch?.[1]`), `none`
when nothing matched.  `extractMeta` captures are `[^"']+`, hence never
the empty string; the `<title>` capture `[\s\S]*?` may be empty. -/
structure PageExtracts where
  ogTitle : Option String
  titleTag : Option String
  ogDescription : Option String
  metaDescription : Option String
  ogImage : Option String
  twitterImage : Option String
  favicon : Option String
deriving DecidableEq, Repr

/-- HTML entity decoding (route lines 67–76), the same chain of
replacements in the same order. -/
def decodeEntities (text : String) : String :=
  ((((((text.replace "&amp;" "&").replace "&lt;" "<").replace "&gt;"
    ">").replace "&quot;" "\"").replace "&#39;" "\x27").replace "&#x27;"
    "\x27").replace "&#x2F;" "/"

/-- JavaScript `String.prototype.slice(0, n)`. -/
def jsSlice (s : String) (n : Nat) : String :=
  String.mk (s.data.take n)

/-- Fallback favicon URL
`https://www.google.com/s2/favicons?domain=<hostname>&sz=64`
(route lines 112 and 171). -/
def googleFavicon (host : String) : String :=
  "https://www.google.com/s2/favicons?domain=" ++ host ++ "&sz=64"

/-- Title resolution (route lines 120–130): `og:title` when truthy, else
the `<title>` capture when truthy, else the hostname; extracted text is
trimmed and entity-decoded. -/
def resolveTitle (u : ParsedUrl) (ex : PageExtracts) : String :=
  let fromTag : String :=
    match ex.titleTag with
    | some t => if t.isEmpty then u.hostname else decodeEntities t.trim
    | none => u.hostname
  match ex.ogTitle with
  | some s => if s.isEmpty then fromTag else decodeEntities s.trim
  | none => fromTag

/-- Description resolution (route lines 132–142): `og:description` when
truthy, else the `name="description"` capture when truthy, else null;
extracted text is trimmed and entity-decoded. -/
def resolveDescription (ogDesc metaDesc : Option String) : Option String :=
  let fromMeta : Option String :=
    match metaDesc with
    | some m => if m.isEmpty then none else some (decodeEntities m.trim)
    | none => none
  match ogDesc with
  | some s => if s.isEmpty then fromMeta else some (decodeEntities s.trim)
  | none => fromMeta

/-- Description truncation (route lines 144–146): a truthy description
longer than 200 characters becomes its first 197 characters followed by
an ellipsis marker. -/
def truncateDescription : Option String → Option String
  | some s => if 200 < s.length then some (jsSlice s 197 ++ "...") else some s
  | none => none

/-- Image resolution (route lines 148–168): `og:image`, else
`twitter:image`, else null; the chosen value is resolved against the page
origin when the `URL` constructor succeeds and kept verbatim when it
throws.  `resolveUrl rel base` models `new URL(rel, base).toString()`,
returning `none` on throw. -/
def resolveImage (resolveUrl : String → String → Option String)
    (u : ParsedUrl) (ex : PageExtracts) : Option String :=
  match ex.ogImage with
  | some img =>
    if img.isEmpty then
      match ex.twitterImage with
      | some timg =>
        if timg.isEmpty then none
        else some ((resolveUrl timg u.origin).getD timg)
      | none => none
    else some ((resolveUrl img u.origin).getD img)
  | none =>
    match ex.twitterImage with
    | some timg =>
      if timg.isEmpty then none
      else some ((resolveUrl timg u.origin).getD timg)
    | none => none

/-- Favicon resolution (route lines 170–190): the first icon-link capture
resolved against the page origin, keeping the third-party fallback when
there is no capture or the `URL` constructor throws. -/
def resolveFavicon (resolveUrl : String → String → Option String)
    (u : ParsedUrl) (ex : PageExtracts) : String :=
  match ex.favicon with
  | some raw =>
    if raw.isEmpty then googleFavicon u.hostname
    else (resolveUrl raw u.origin).getD (googleFavicon u.hostname)
  | none => googleFavicon u.hostname

/-- Successful response body of the metadata route. -/
structure MetadataResult where
  title : String
  favicon_url : String
  og_image : Option String
  og_description : Option String
deriving DecidableEq, Repr

/-- Body of the POST handler after URL validation (route lines 94–197).
`fetched` is `none` when the page fetch throws (network error, or the
5-second timer fired and aborted it): that path returns the fallback
result before any extraction.  Otherwise `fetched` carries the extraction
results of the fetched HTML (a non-OK status still has its body
processed). -/
def postMetadata (resolveUrl : String → String → Option String)
    (u : ParsedUrl) (fetched : Option PageExtracts) : MetadataResult :=
  match fetched with
  | none =>
    { title := u.hostname
      favicon_url := googleFavicon u.hostname
      og_image := none
      og_description := none }
  | some ex =>
    { title := resolveTitle u ex
      favicon_url := resolveFavicon resolveUrl u ex
      og_image := resolveImage resolveUrl u ex
      og_description :=
        truncateDescription (resolveDescription ex.ogDescription ex.metaDescription) }

/-- Fixture: a positioned record. -/
def bkA : Bookmark :=
  { id := "a", title := "A", url := "https://a.example", favicon_url := none
    og_image := none, og_description := none, created_at := 10
    position := some 0 }

/-- Fixture: a distinct record sharing `bkA.id`. -/
def bkA2 : Bookmark := { bkA with title := "A edited" }

/-- Fixture: a freshly inserted record, no position yet. -/
def bkNew : Bookmark :=
  { id := "b", title := "B", url := "https://b.example", favicon_url := none
    og_image := none, og_description := none, created_at := 20
    position := none }

/-- Fixture: a second positioned record, ordered after `bkA`. -/
def bkC : Bookmark :=
  { id := "c", title := "C", url := "https://c.example", favicon_url := none
    og_image := none, og_description := none, created_at := 5
    position := some 1 }

/-- Fixture store for the end-to-end reorder scenario:
`[{id:1,pos:0},{id:2,pos:1},{id:3,pos:2}]`. -/
def bk1 : Bookmark :=
  { id := "1", title := "one", url := "u1", favicon_url := none
    og_image := none, og_description := none, created_at := 3
    position := some 0 }

/-- Second record of the scenario store. -/
def bk2 : Bookmark :=
  { id := "2", title := "two", url := "u2", favicon_url := none
    og_image := none, og_description := none, created_at := 2
    position := some 1 }

/-- Third record of the scenario store. -/
def bk3 : Bookmark :=
  { id := "3", title := "three", url := "u3", favicon_url := none
    og_image := none, og_description := none, created_at := 1
    position := some 2 }

/-- The scenario store. -/
def demoStore : List Bookmark := [bk1, bk2, bk3]

/-- Fixture pagination state: one loaded page, more available, no call in
flight. -/
def demoPageState : PageState :=
  { bookmarks := [bkA], currentPage := 1, hasMore := true
    loadingMore := false }

/-- Fixture parsed URL. -/
def demoUrl : ParsedUrl :=
  { hostname := "example.com", origin := "https://example.com" }

/-- Fixture description of 201 characters (the letter x repeated). -/
def longDesc : String := String.mk (List.replicate 201 (Char.ofNat 120))

/-- Fixture extraction results with the long `og:description`. -/
def demoExtracts : PageExtracts :=
  { ogTitle := none, titleTag := none
    ogDescription := some longDesc
    metaDescription := none, ogImage := none, twitterImage := none
    favicon := none }

/-- Insert-only store operations: a pagination merge of a fetched batch, a
realtime `inserted` event, and the local `bookmark-added` event. -/
inductive InsertOp
  | merge (data : List Bookmark)
  | live (r : Bookmark)
  | localAdd (r : Bookmark)
deriving DecidableEq, Repr

/-- Apply one insert operation: merges go through the pagination merge,
the two event kinds go through the dedup-prepend handler. -/
def applyInsertOp (s : List Bookmark) : InsertOp → List Bookmark
  | InsertOp.merge data => mergePage s data
  | InsertOp.live r => insertEvent r s
  | InsertOp.localAdd r => insertEvent r s

/-- Apply a sequence of insert operations in order. -/
def applyInsertOps (s : List Bookmark) (ops : List InsertOp) : List Bookmark :=
  ops.foldl applyInsertOp s

/-- States reachable from a sorted initial load by the full set of store
mutations. -/
inductive Reachable : List Bookmark → Prop
  | init (s : List Bookmark) (h : sortedStore s) : Reachable s
  | step (s : List Bookmark) (op : StoreOp) (h : Reachable s) :
      Reachable (applyOp s op)

/-- States reachable by the order-preserving operations only: a sorted
initial load, live DELETE events, optimistic deletes, drag-reorders, and
pagination merges whose fetched batch is itself ordered and ordered after
every record already in the store (which is what the server range query
returns). -/
inductive ReachableOrdered : List Bookmark → Prop
  | init (s : List Bookmark) (h : sortedStore s) : ReachableOrdered s
  | deleted (s : List Bookmark) (i : String) (h : ReachableOrdered s) :
      ReachableOrdered (applyOp s (StoreOp.deleted i))
  | optDelete (s : List Bookmark) (i : String) (h : ReachableOrdered s) :
      ReachableOrdered (applyOp s (StoreOp.optDelete i))
  | reorder (s : List Bookmark) (d : Option String) (t : String)
      (h : ReachableOrdered s) :
      ReachableOrdered (applyOp s (StoreOp.reorder d t))
  | merge (s data : List Bookmark) (h : ReachableOrdered s)
      (hd : sortedStore data)
      (hcross : ∀ a ∈ s, ∀ b ∈ data, bmLe a b = true) :
      ReachableOrdered (applyOp s (StoreOp.mergePage data))

/-- C3: an optimistic delete of id `x` from store state S whose remote
delete fails restores the store to exactly S — the same records in the
same order — regardless of which mutations ran concurrently between the
local removal and the failure (the snapshot is restored wholesale,
last-snapshot-wins). -/
theorem C3_delete_rollback (i : String) (s : List Bookmark)
    (concurrent : List StoreOp) :
    handleDelete i s concurrent false = s := rfl

/-- C4: on the store `[{id:1,pos:0},{id:2,pos:1},{id:3,pos:2}]`, dragging
id 3 onto id 1 produces `[{id:3,pos:0},{id:1,pos:1},{id:2,pos:2}]` (source
removed from its index, inserted at the target index, dense 0-indexed
positions recomputed), and a failed remote upsert afterwards restores the
original store. -/
theorem C4_reorder_scenario :
    handleDrop (some "3") "1" demoStore =
      [{ bk3 with position := some 0 }, { bk1 with position := some 1 },
        { bk2 with position := some 2 }] ∧
    handleDropRemote (some "3") "1" demoStore false = demoStore := by
  constructor <;> decide

/-- C5: a pagination fetch returning fewer than `pageSize` records clears
`hasMore`, and on any state with `hasMore` cleared every `loadMore` call
returns the state unchanged without issuing a fetch. -/
theorem C5_pagination_exhaustion (pageSize : Nat) (st : PageState)
    (data : List Bookmark) (hFlight : st.loadingMore = false)
    (hMore : st.hasMore = true) (hShort : data.length < pageSize) :
    (loadMore pageSize st (Except.ok data)).hasMore = false ∧
    (∀ (st2 : PageState) (fetch : Except Unit (List Bookmark)),
      st2.hasMore = false → loadMore pageSize st2 fetch = st2 ∧
        issuesFetch st2 = false) := by
  constructor
  · simp [loadMore, hFlight, hMore, hShort]
  · intro st2 fetch h2
    constructor
    · simp [loadMore, h2]
    · simp [issuesFetch, h2]

/-- Witness for C5 at a concrete state and short page. -/
theorem C5_pagination_exhaustion_witness :
    (loadMore 2 demoPageState (Except.ok [bkC])).hasMore = false ∧
    (∀ (st2 : PageState) (fetch : Except Unit (List Bookmark)),
      st2.hasMore = false → loadMore 2 st2 fetch = st2 ∧
        issuesFetch st2 = false) :=
  C5_pagination_exhaustion 2 _ [bkC] rfl rfl (by decide)

/-- C6: a failed pagination fetch leaves the whole pagination state — the
list, `currentPage`, `hasMore` — unchanged, so a retry requests exactly
the same `[from, to]` range. -/
theorem C6_pagination_failure (pageSize : Nat) (st : PageState) :
    loadMore pageSize st (Except.error ()) = st ∧
    loadRange pageSize (loadMore pageSize st (Except.error ())) =
      loadRange pageSize st := by
  have h1 : loadMore pageSize st (Except.error ()) = st := by
    unfold loadMore
    split
    · rfl
    · next hguard =>
      have hlm : st.loadingMore = false := by
        rcases Bool.or_eq_false_iff.mp (Bool.of_not_eq_true hguard) with ⟨h, -⟩
        exact h
      cases st
      simp_all
  exact ⟨h1, by rw [h1]⟩

/-- C8: for every syntactically valid URL whose page fetch fails (network
error or the 5-second abort), the metadata route returns exactly
title = hostname, favicon_url = the third-party favicon service URL
containing that hostname, og_image = null and og_description = null,
without throwing (the handler is total on this path). -/
theorem C8_metadata_fallback (resolveUrl : String → String → Option String)
    (u : ParsedUrl) :
    postMetadata resolveUrl u none =
      { title := u.hostname, favicon_url := googleFavicon u.hostname,
        og_image := none, og_description := none } ∧
    ∃ pre suf,
      (postMetadata resolveUrl u none).favicon_url = pre ++ u.hostname ++ suf :=
  ⟨rfl, "https://www.google.com/s2/favicons?domain=", "&sz=64", rfl⟩

/-- C9: the returned description is resolved as `og:description` first,
then the `name="description"` meta tag, else null; a resolved description
longer than 200 characters is truncated — its first 197 characters with an
ellipsis marker appended, 200 characters in total — and one of at most 200
characters is returned unmodified. -/
theorem C9_description_truncation
    (resolveUrl : String → String → Option String) (u : ParsedUrl)
    (ex : PageExtracts) :
    (postMetadata resolveUrl u (some ex)).og_description =
      truncateDescription
        (resolveDescription ex.ogDescription ex.metaDescription) ∧
    (∀ s : String, s.isEmpty = false →
      resolveDescription (some s) ex.metaDescription =
        some (decodeEntities s.trim)) ∧
    (∀ m : String, m.isEmpty = false →
      resolveDescription none (some m) = some (decodeEntities m.trim)) ∧
    resolveDescription none none = none ∧
    (∀ s : String, 200 < s.length →
      truncateDescription (some s) = some (jsSlice s 197 ++ "...") ∧
        (jsSlice s 197 ++ "...").length = 200) ∧
    (∀ s : String, s.length ≤ 200 → truncateDescription (some s) = some s) := by
  refine ⟨rfl, ?_, ?_, rfl, ?_, ?_⟩
  · intro s hs
    simp [resolveDescription, hs]
  · intro m hm
    simp [resolveDescription, hm]
  · intro s hlen
    have hdata : 200 < s.data.length := hlen
    have h3 : ("..." : String).length = 3 := by decide
    refine ⟨by simp [truncateDescription, hlen], ?_⟩
    simp [jsSlice, h3]
    omega
  · intro s hlen
    simp only [truncateDescription, if_neg (by omega : ¬ 200 < s.length)]

/-- Witness for C9: the 201-character fixture description is truncated to
exactly 200 characters with the marker appended. -/
theorem C9_description_truncation_witness :
    truncateDescription (some longDesc) =
      some (jsSlice longDesc 197 ++ "...") ∧
    (jsSlice longDesc 197 ++ "...").length = 200 :=
  (C9_description_truncation (fun _ _ => none) demoUrl
    demoExtracts).2.2.2.2.1 longDesc
    (by set_option maxRecDepth 4000 in decide)

/-- Helper: filtering preserves an ordered store. -/
theorem sortedStore_filter (p : Bookmark → Bool) (s : List Bookmark)
    (h : sortedStore s) : sortedStore (s.filter p) :=
  List.Pairwise.filter p h

/-- Helper: recomputing dense 0-indexed positions yields an ordered
store, whatever the order of the underlying records. -/
theorem sortedStore_mapIdx_position (l : List Bookmark) :
    sortedStore (l.mapIdx (fun i b => { b with position := some i })) := by
  rw [sortedStore, List.pairwise_iff_getElem]
  intro i j hi hj hij
  simp only [List.getElem_mapIdx]
  simp [bmLe, posLt, hij]

/-- Helper: the drag-reorder handler maps an ordered store to an ordered
store (the guard branches return the store, the main branch recomputes
dense positions). -/
theorem sortedStore_handleDrop (d : Option String) (t : String)
    (s : List Bookmark) (h : sortedStore s) :
    sortedStore (handleDrop d t s) := by
  cases d with
  | none => exact h
  | some d2 =>
    by_cases hdt : d2 = t
    · simpa [handleDrop, hdt] using h
    · cases hfd : s.findIdx? (fun b => b.id == d2) with
      | none => simpa [handleDrop, hdt, hfd] using h
      | some di =>
        cases hft : s.findIdx? (fun b => b.id == t) with
        | none => simpa [handleDrop, hdt, hfd, hft] using h
        | some ti =>
          cases hmv : s[di]? with
          | none => simpa [handleDrop, hdt, hfd, hft, hmv] using h
          | some moved =>
            simpa [handleDrop, hdt, hfd, hft, hmv] using
              sortedStore_mapIdx_position ((s.eraseIdx di).insertIdx ti moved)

/-- Helper: merging an ordered batch that lies entirely after the current
records preserves an ordered store. -/
theorem sortedStore_mergePage (s data : List Bookmark) (hs : sortedStore s)
    (hd : sortedStore data)
    (hcross : ∀ a ∈ s, ∀ b ∈ data, bmLe a b = true) :
    sortedStore (mergePage s data) := by
  rw [sortedStore, mergePage, List.pairwise_append]
  exact ⟨hs, List.Pairwise.filter _ hd,
    fun a ha b hb => hcross a ha b (List.mem_of_mem_filter hb)⟩

/-- C1 counterexample: the order invariant does not hold at every
reachable state.  From the sorted store `[bkA]` (one record at position
0), a live `inserted` event for a record without a position prepends it
(`BookmarkList.tsx` line 98), producing a sequence whose position values
are `null` then `0` — decreasing under the nulls-last order. -/
theorem C1_insert_breaks_order :
    Reachable (applyOp [bkA] (StoreOp.inserted bkNew)) ∧
    ¬ sortedStore (applyOp [bkA] (StoreOp.inserted bkNew)) :=
  ⟨Reachable.step [bkA] (StoreOp.inserted bkNew)
    (Reachable.init [bkA] (List.pairwise_singleton _ _)),
   by rw [sortedStore]; decide⟩

/-- C1 amended: iterating the store yields non-decreasing `position`
(null last) with ties broken by `created_at` descending at every state
reachable by the order-preserving operations — initial load, live deleted
events, optimistic deletes, reorders, and pagination merges whose batch
continues the order.  Live inserted events (which prepend regardless of
position) and updated events (which replace in place) are excluded, as
they can break the order. -/
theorem C1_order_invariant (s : List Bookmark) (h : ReachableOrdered s) :
    sortedStore s := by
  induction h with
  | init s hs => exact hs
  | deleted s i h ih => exact sortedStore_filter _ _ ih
  | optDelete s i h ih => exact sortedStore_filter _ _ ih
  | reorder s d t h ih => exact sortedStore_handleDrop d t s ih
  | merge s data h hd hcross ih => exact sortedStore_mergePage s data ih hd hcross

/-- Witness for C1 at a concrete reachable state: merge a following page
into `[bkA]`, then delete `a`. -/
theorem C1_order_invariant_witness :
    sortedStore (applyOp (applyOp [bkA] (StoreOp.mergePage [bkC]))
      (StoreOp.deleted "a")) :=
  C1_order_invariant _ (ReachableOrdered.deleted _ "a"
    (ReachableOrdered.merge [bkA] [bkC]
      (ReachableOrdered.init [bkA] (List.pairwise_singleton _ _))
      (List.pairwise_singleton _ _) (by decide)))

/-- Helper: the dedup-prepend of a single record preserves id-uniqueness. -/
theorem NodupIds_insertEvent (r : Bookmark) (s : List Bookmark)
    (h : NodupIds s) : NodupIds (insertEvent r s) := by
  unfold insertEvent
  split
  · exact h
  · next hany =>
    rw [NodupIds, List.map_cons, List.nodup_cons]
    refine ⟨?_, h⟩
    intro hmem
    obtain ⟨b, hb, hid⟩ := List.mem_map.mp hmem
    exact hany (List.any_eq_true.mpr ⟨b, hb, by simp [hid]⟩)

/-- Helper: merging a batch with no internally repeated ids into a store
with unique ids preserves id-uniqueness. -/
theorem NodupIds_mergePage (s data : List Bookmark)
    (hs : NodupIds s) (hd : NodupIds data) : NodupIds (mergePage s data) := by
  rw [NodupIds, mergePage, List.map_append, List.nodup_append]
  refine ⟨hs, ?_, ?_⟩
  · exact List.Nodup.sublist
      ((List.filter_sublist data).map (fun b => b.id)) hd
  · intro x hx1 hx2
    obtain ⟨b, hb, hbid⟩ := List.mem_map.mp hx2
    have hbp := List.of_mem_filter hb
    obtain ⟨c, hc, hcid⟩ := List.mem_map.mp hx1
    simp only [Bool.not_eq_eq_eq_not, Bool.not_true, List.any_eq_false] at hbp
    have := hbp c hc
    simp [hcid, hbid] at this

/-- Helper: a sequence of insert operations whose merge batches have no
internally repeated ids preserves id-uniqueness. -/
theorem NodupIds_applyInsertOps (ops : List InsertOp) :
    ∀ s : List Bookmark, NodupIds s →
      (∀ data, InsertOp.merge data ∈ ops → NodupIds data) →
      NodupIds (applyInsertOps s ops) := by
  induction ops with
  | nil => intro s hs _; exact hs
  | cons op rest ih =>
    intro s hs hbatch
    have hstep : NodupIds (applyInsertOp s op) := by
      cases op with
      | merge data =>
        exact NodupIds_mergePage s data hs
          (hbatch data (List.mem_cons_self _ _))
      | live r => exact NodupIds_insertEvent r s hs
      | localAdd r => exact NodupIds_insertEvent r s hs
    exact ih (applyInsertOp s op) hstep
      (fun data hm => hbatch data (List.mem_cons_of_mem _ hm))

/-- C2 counterexample: the merge of a single fetched batch that repeats
an id internally produces duplicates — the filter on `loadMore`'s merge
checks incoming records only against the ids already in the store, not
against each other.  Merging the batch `[bkA, bkA2]` (two records with id
"a") into the empty store keeps both. -/
theorem C2_duplicate_batch_counterexample :
    mergePage [] [bkA, bkA2] = [bkA, bkA2] ∧
    ¬ NodupIds (mergePage [] [bkA, bkA2]) := by
  refine ⟨by decide, ?_⟩
  rw [NodupIds]
  decide

/-- C2 amended: for every sequence of insert operations — pagination
merges, live `inserted` events, local bookmark-added events — with ids
repeated arbitrarily across operations, provided each merged batch has no
internally repeated ids (a database page keyed by primary id never does),
a store with unique ids keeps exactly one record per distinct id, and an
insert whose id already exists is a no-op. -/
theorem C2_insert_dedup (ops : List InsertOp) (s : List Bookmark)
    (hs : NodupIds s)
    (hbatch : ∀ data, InsertOp.merge data ∈ ops → NodupIds data) :
    NodupIds (applyInsertOps s ops) ∧
    (∀ (r : Bookmark) (s2 : List Bookmark), hasId s2 r.id = true →
      insertEvent r s2 = s2) := by
  refine ⟨NodupIds_applyInsertOps ops s hs hbatch, ?_⟩
  intro r s2 h
  unfold insertEvent
  exact if_pos h

/-- Witness for C2 on a concrete sequence of inserts with repeated ids
across operations. -/
theorem C2_insert_dedup_witness :
    NodupIds (applyInsertOps []
      [InsertOp.merge [bkA], InsertOp.live bkA2, InsertOp.localAdd bkNew]) ∧
    (∀ (r : Bookmark) (s2 : List Bookmark), hasId s2 r.id = true →
      insertEvent r s2 = s2) :=
  C2_insert_dedup _ [] (by rw [NodupIds]; decide)
    (fun data hm => by
      simp only [List.mem_cons, List.not_mem_nil, or_false] at hm
      rcases hm with h1 | h2 | h3
      · rw [InsertOp.merge.injEq] at h1
        subst h1
        rw [NodupIds]; decide
      · exact absurd h2 (by simp)
      · exact absurd h3 (by simp))

/-- C10 counterexample: `replace` does not upsert.  The UPDATE handler is
a `map` over the current list, so applying it to a store that has no
record with the incoming id — here the empty store — inserts nothing, and
afterwards the store still contains no record with that id. -/
theorem C10_replace_no_upsert_counterexample :
    replaceEvent bkA [] = [] ∧
    ¬ ∃ b ∈ replaceEvent bkA [], b.id = bkA.id := by
  refine ⟨rfl, ?_⟩
  rintro ⟨b, hb, -⟩
  simp [replaceEvent] at hb

/-- C10 amended: applying replace(r) to a store that contains at least
one record with r's id replaces every matching record in place — the
store then contains a record equal to r, the length is unchanged, each
matching index now holds r, and records with other ids are unchanged at
their indices.  (A store with no matching record is left unchanged:
replace updates, it does not insert.) -/
theorem C10_replace_updates (r : Bookmark) (s : List Bookmark)
    (h : ∃ b ∈ s, b.id = r.id) :
    (∃ b ∈ replaceEvent r s, b = r) ∧
    (replaceEvent r s).length = s.length ∧
    (∀ (i : Nat) (b : Bookmark), s[i]? = some b → b.id = r.id →
      (replaceEvent r s)[i]? = some r) ∧
    (∀ (i : Nat) (b : Bookmark), s[i]? = some b → b.id ≠ r.id →
      (replaceEvent r s)[i]? = some b) := by
  refine ⟨?_, by simp [replaceEvent], ?_, ?_⟩
  · obtain ⟨b, hb, hid⟩ := h
    refine ⟨r, ?_, rfl⟩
    have hm := List.mem_map_of_mem (fun x => if x.id = r.id then r else x) hb
    simpa [replaceEvent, hid] using hm
  · intro i b hib hid
    simp [replaceEvent, List.getElem?_map, hib, hid]
  · intro i b hib hid
    simp [replaceEvent, List.getElem?_map, hib, hid]

/-- Witness for C10: replacing id "a" in the one-record store `[bkA]`
with the edited record `bkA2`. -/
theorem C10_replace_updates_witness :
    (∃ b ∈ replaceEvent bkA2 [bkA], b = bkA2) ∧
    (replaceEvent bkA2 [bkA]).length = [bkA].length ∧
    (∀ (i : Nat) (b : Bookmark), [bkA][i]? = some b → b.id = bkA2.id →
      (replaceEvent bkA2 [bkA])[i]? = some bkA2) ∧
    (∀ (i : Nat) (b : Bookmark), [bkA][i]? = some b → b.id ≠ bkA2.id →
      (replaceEvent bkA2 [bkA])[i]? = some b) :=
  C10_replace_updates bkA2 [bkA] (by decide)

/-- C7: a drag-reorder whose resulting sequence is identical to the
current order leaves every record's `position` unchanged.  Such a reorder
is necessarily one of the guard branches (missing drag source, source
dropped on itself, or an id not found), which return the store untouched:
on the main path the dragged record ends up at the target index, so the
id sequence always changes. -/
theorem C7_reorder_identity (draggedId : Option String) (targetId : String)
    (s : List Bookmark)
    (h : (handleDrop draggedId targetId s).map (fun b => b.id) =
      s.map (fun b => b.id)) :
    (handleDrop draggedId targetId s).map (fun b => b.position) =
      s.map (fun b => b.position) := by
  cases draggedId with
  | none => rfl
  | some d =>
    by_cases hdt : d = targetId
    · simp [handleDrop, hdt]
    · cases hfd : s.findIdx? (fun b => b.id == d) with
      | none => simp [handleDrop, hdt, hfd]
      | some di =>
        cases hft : s.findIdx? (fun b => b.id == targetId) with
        | none => simp [handleDrop, hdt, hfd, hft]
        | some ti =>
          cases hmv : s[di]? with
          | none => simp [handleDrop, hdt, hfd, hft, hmv]
          | some moved =>
            exfalso
            obtain ⟨hdlt, hpd, -⟩ := List.findIdx?_eq_some_iff_getElem.mp hfd
            obtain ⟨htlt, hpt, -⟩ := List.findIdx?_eq_some_iff_getElem.mp hft
            obtain ⟨hdlt2, hmoveq⟩ := List.getElem?_eq_some_iff.mp hmv
            have he : (s.eraseIdx di).length = s.length - 1 :=
              List.length_eraseIdx_of_lt hdlt
            have hle : ti ≤ (s.eraseIdx di).length := by omega
            have hti_ins : ti < ((s.eraseIdx di).insertIdx ti moved).length := by
              rw [List.length_insertIdx ti _ hle]
              omega
            simp only [handleDrop, if_neg hdt, hfd, hft, hmv] at h
            have hcong := congrArg (fun l => l[ti]?) h
            simp only [List.getElem?_map, List.getElem?_mapIdx] at hcong
            rw [List.getElem?_eq_getElem hti_ins,
              List.getElem?_eq_getElem htlt] at hcong
            rw [List.getElem_insertIdx_self _ _ _ hle] at hcong
            simp only [Option.map_some', Option.some.injEq] at hcong
            have hd_eq : moved.id = d := by
              rw [← hmoveq]
              exact eq_of_beq hpd
            have ht_eq : (s.get ⟨ti, htlt⟩).id = targetId := eq_of_beq hpt
            apply hdt
            rw [← hd_eq, ← ht_eq]
            simpa using hcong

/-- Witness for C7: dropping a record onto itself (the identity reorder)
leaves positions unchanged. -/
theorem C7_reorder_identity_witness :
    (handleDrop (some "1") "1" demoStore).map (fun b => b.position) =
      demoStore.map (fun b => b.position) :=
  C7_reorder_identity (some "1") "1" demoStore (by decide)
